import Mathlib

/-!
Verification development for the `sformat-dynamic` runtime string-formatting
engine.  The definitions below are a shallow embedding of the crate's source:

* `compile.rs`  — combinator parser from template string to token sequence;
* `format.rs`   — the `Format` specification and layout engine;
* `context.rs`  — the `TypedValue` union, sign computation, lookup contexts;
* `token.rs`    — token rendering.

Rust `usize` subtractions are modelled with `sub?`, which returns `none` on
underflow: in the Rust code an underflowing `usize` subtraction panics (with
debug assertions) or wraps to an astronomically large fill count (release),
so `none` marks abnormal termination of a render.  Byte sinks are modelled as
pure string accumulation (the sink itself never fails in this development).
-/

namespace SFmt

/-- Alignment of a formatted value inside its field (`format.rs`). -/
inductive Alignment
  | left
  | center
  | right
deriving DecidableEq, Repr

/-- Fill specification: optional fill character plus alignment (`format.rs`). -/
structure Fill where
  fill_char : Option Char
  alignment : Alignment
deriving DecidableEq, Repr

/-- `ZERO_FILL` constant from `format.rs`. -/
def ZERO_FILL : Fill := ⟨some '0', Alignment.right⟩

/-- `DEFAULT_FILL` constant from `format.rs`. -/
def DEFAULT_FILL : Fill := ⟨some ' ', Alignment.left⟩

/-- The sign flag of a format spec (`format.rs`): `+` or the inert `-`. -/
inductive SignFlag
  | plus
  | minus
deriving DecidableEq, Repr

/-- Parsed flags: optional sign flag and the zero flag
(`Option<()>` in Rust, a `Bool` here) (`format.rs`). -/
structure Flags where
  sign : Option SignFlag
  zero : Bool
deriving DecidableEq, Repr

/-- `Flags::is_number_aware`: the zero flag makes the format number aware. -/
def Flags.is_number_aware (f : Flags) : Bool := f.zero

/-- A parsed format specification (`format.rs`). -/
structure Format where
  fill : Option Fill
  flags : Flags
  width : Option Nat
  precision : Option Nat
deriving DecidableEq, Repr

/-- Sign of a numeric value (`context.rs`). -/
inductive Sign
  | positive
  | negative
  | zero
deriving DecidableEq, Repr

/-- `impl Into<u8> for Sign` (`context.rs`): the byte written for each sign. -/
def Sign.toByteChar : Sign → Char
  | Sign.positive => '+'
  | Sign.negative => '-'
  | Sign.zero => '+'

/-- Classification of a float as far as `TypedValue::sign` observes it
(`is_finite` / `is_sign_positive` / `is_sign_negative` in `context.rs`).
`nonFinite` covers NaN and the two infinities. -/
inductive FloatClass
  | finitePositive
  | finiteNegative
  | nonFinite
deriving DecidableEq, Repr

/-- A float value as the renderer observes it: its host `to_string`
representation together with its sign classification.  The layout engine in
`format.rs` consumes floats only through these two attributes. -/
structure FloatVal where
  repr : String
  cls : FloatClass
deriving DecidableEq, Repr

/-- `DynPointer` (`context.rs`): an externally owned Debug or Display value,
observed by the renderer only through the text its formatting produces. -/
inductive DynPointer
  | debug (repr : String)
  | display (repr : String)
deriving DecidableEq, Repr

/-- The `TypedValue` union (`context.rs`).  Bounded integer variants carry
their mathematical value; their Rust `to_string` is plain decimal either way. -/
inductive TypedValue
  | str (s : String)
  | int (n : Int)
  | int64 (n : Int)
  | int32 (n : Int)
  | int16 (n : Int)
  | int8 (n : Int)
  | uint (n : Nat)
  | uint64 (n : Nat)
  | uint32 (n : Nat)
  | uint16 (n : Nat)
  | uint8 (n : Nat)
  | float32 (f : FloatVal)
  | float64 (f : FloatVal)
  | bool (b : Bool)
  | dyn (d : DynPointer)
deriving DecidableEq, Repr

/-- `TypedValue::string_repr` (`context.rs`): the default textual form. -/
def TypedValue.string_repr : TypedValue → String
  | TypedValue.str s => s
  | TypedValue.int n => toString n
  | TypedValue.int64 n => toString n
  | TypedValue.int32 n => toString n
  | TypedValue.int16 n => toString n
  | TypedValue.int8 n => toString n
  | TypedValue.uint n => toString n
  | TypedValue.uint64 n => toString n
  | TypedValue.uint32 n => toString n
  | TypedValue.uint16 n => toString n
  | TypedValue.uint8 n => toString n
  | TypedValue.float32 f => f.repr
  | TypedValue.float64 f => f.repr
  | TypedValue.bool true => "true"
  | TypedValue.bool false => "false"
  | TypedValue.dyn (DynPointer.debug r) => r
  | TypedValue.dyn (DynPointer.display r) => r

/-- `TypedValue::is_numeric` (`context.rs`). -/
def TypedValue.is_numeric : TypedValue → Bool
  | TypedValue.int _ | TypedValue.int64 _ | TypedValue.int32 _
  | TypedValue.int16 _ | TypedValue.int8 _
  | TypedValue.uint _ | TypedValue.uint64 _ | TypedValue.uint32 _
  | TypedValue.uint16 _ | TypedValue.uint8 _
  | TypedValue.float32 _ | TypedValue.float64 _ => true
  | _ => false

/-- Sign of a signed integer, following the `signum` match in
`TypedValue::sign` (`context.rs`). -/
def signOfInt (n : Int) : Option Sign :=
  if 0 < n then some Sign.positive
  else if n = 0 then some Sign.zero
  else some Sign.negative

/-- Sign of an unsigned integer (`context.rs`). -/
def signOfNat (n : Nat) : Option Sign :=
  match n with
  | 0 => some Sign.zero
  | _ + 1 => some Sign.positive

/-- Sign of a float (`context.rs`): a finite float reports its sign bit,
NaN and the infinities report no sign. -/
def signOfFloat (f : FloatVal) : Option Sign :=
  match f.cls with
  | FloatClass.finitePositive => some Sign.positive
  | FloatClass.finiteNegative => some Sign.negative
  | FloatClass.nonFinite => none

/-- `TypedValue::sign` (`context.rs`). -/
def TypedValue.sign : TypedValue → Option Sign
  | TypedValue.int n => signOfInt n
  | TypedValue.int64 n => signOfInt n
  | TypedValue.int32 n => signOfInt n
  | TypedValue.int16 n => signOfInt n
  | TypedValue.int8 n => signOfInt n
  | TypedValue.uint n => signOfNat n
  | TypedValue.uint64 n => signOfNat n
  | TypedValue.uint32 n => signOfNat n
  | TypedValue.uint16 n => signOfNat n
  | TypedValue.uint8 n => signOfNat n
  | TypedValue.float32 f => signOfFloat f
  | TypedValue.float64 f => signOfFloat f
  | _ => none

/-- `SignFlag::get_sign_for_value` (`format.rs`): only the `+` flag ever
forces a sign; the `-` flag is unused. -/
def SignFlag.get_sign_for_value : SignFlag → TypedValue → Option Sign
  | SignFlag.plus, val => val.sign
  | SignFlag.minus, _ => none

/-- `Format::get_fill` (`format.rs`): a number-aware format applied to a
numeric value forces the zero fill; otherwise the requested (or default)
fill applies. -/
def Format.get_fill (fmt : Format) (val : TypedValue) : Fill :=
  if fmt.flags.is_number_aware && val.is_numeric then ZERO_FILL
  else fmt.fill.getD DEFAULT_FILL

/-- Checked `usize` subtraction: `none` models the underflow panic. -/
def sub? (a b : Nat) : Option Nat :=
  if b ≤ a then some (a - b) else none

/-- `Format::write_sign` (`format.rs`): returns the bytes written and the
`Option<Sign>` result.  Positive and zero signs are always written; a
negative sign is written only for a number-aware format (otherwise the `-`
is already part of the string representation). -/
def Format.write_sign (fmt : Format) (sign : Sign) : String × Option Sign :=
  match sign with
  | Sign.positive => (String.singleton Sign.positive.toByteChar, some Sign.positive)
  | Sign.zero => (String.singleton Sign.zero.toByteChar, some Sign.zero)
  | Sign.negative =>
    if fmt.flags.is_number_aware then
      (String.singleton Sign.negative.toByteChar, some Sign.negative)
    else ("", none)

/-- `Fill::get_fill_char_or_default` (`format.rs`). -/
def Fill.get_fill_char_or_default (f : Fill) : Char :=
  f.fill_char.getD ' '

/-- `Fill::write_filler` (`format.rs`): writes `count` copies of the fill
character and returns the count (the Rust `bytes_to_write = range.len()`). -/
def Fill.write_filler (f : Fill) (count : Nat) : String × Nat :=
  (String.mk (List.replicate count f.get_fill_char_or_default), count)

/-- `Fill::write_left_filler` (`format.rs`).  `val.len()` in Rust is the
byte length, hence `utf8ByteSize`; the subtractions are checked. -/
def Fill.write_left_filler (f : Fill) (val : String) (width : Nat) :
    Option (String × Nat) :=
  match f.alignment with
  | Alignment.left => some ("", 0)
  | Alignment.center =>
    (sub? width val.utf8ByteSize).map (fun d => f.write_filler (d / 2))
  | Alignment.right =>
    (sub? width val.utf8ByteSize).map (fun d => f.write_filler d)

/-- `Fill::write_right_filler` (`format.rs`). -/
def Fill.write_right_filler (f : Fill) (width : Nat) : String × Nat :=
  match f.alignment with
  | Alignment.left | Alignment.center => f.write_filler width
  | Alignment.right => ("", 0)

/-- `Format::write_formatted` (`format.rs`): the full layout algorithm.
Returns the bytes written, or `none` when a `usize` subtraction underflows
(a panic in the Rust code).  The order of the concatenated fragments mirrors
the order of the `write` calls in the source. -/
def Format.write_formatted (fmt : Format) (val : TypedValue) : Option String :=
  let write_str := val.string_repr
  let sign := fmt.flags.sign.bind (fun sf => sf.get_sign_for_value val)
  match fmt.width with
  | some width =>
    if write_str.utf8ByteSize > width then
      -- The value overflows the field: sign (if any) then the value verbatim.
      some ((match sign with
             | some s => (fmt.write_sign s).1
             | none => "") ++ write_str)
    else
      -- The value fits: sign bookkeeping, left filler, value, right filler.
      let fill := fmt.get_fill val
      let headAdjust : Option (String × Nat × String) :=
        if fmt.flags.is_number_aware then
          match sign with
          | some s =>
            let bytesRet := fmt.write_sign s
            match bytesRet.2 with
            | some Sign.positive | some Sign.zero =>
              (sub? width 1).map (fun w => (bytesRet.1, w, write_str))
            | some Sign.negative =>
              (sub? width 1).map (fun w => (bytesRet.1, w, write_str.drop 1))
            | none => some (bytesRet.1, width, write_str)
          | none => some ("", width, write_str)
        else
          match sign with
          | some Sign.positive | some Sign.zero =>
            (sub? width 1).map (fun w => ("", w, write_str))
          | _ => some ("", width, write_str)
      match headAdjust with
      | none => none
      | some (preBytes, width1, wstr) =>
        match fill.write_left_filler wstr width1 with
        | none => none
        | some (leftBytes, leftCount) =>
          match sub? width1 leftCount with
          | none => none
          | some width2 =>
            let deferredSign :=
              if fmt.flags.is_number_aware then ""
              else match sign with
                   | some s => (fmt.write_sign s).1
                   | none => ""
            match sub? width2 wstr.utf8ByteSize with
            | none => none
            | some width3 =>
              some (preBytes ++ leftBytes ++ deferredSign ++ wstr ++
                    (fill.write_right_filler width3).1)
  | none =>
    some ((match sign with
           | some s => (fmt.write_sign s).1
           | none => "") ++ write_str)

/-- A compiled token (`token.rs`). -/
inductive Token
  | literal (s : String)
  | variable (name : String) (fmt : Option Format)
deriving DecidableEq, Repr

/-- Render error taxonomy (`format.rs`); the wrapped `io::Error` payloads are
omitted because the modelled sink never fails. -/
inductive FmtError
  | writeLiteralError
  | writeVariableError (name : String)
  | variableNameError (name : String)
  | variableTypeError (name : String)
deriving DecidableEq, Repr

/-- A value-lookup context, modelling the `HashMap<Name, TypedValue>`
implementation of the `Context` trait (`context.rs`). -/
def Ctxt := List (String × TypedValue)

/-- `Context::get_variable` for the hash-map context (`context.rs`):
a missing name yields `VariableNameError` carrying exactly that name. -/
def getVariable (ctx : Ctxt) (name : String) : Option TypedValue :=
  (ctx.find? (fun p => p.1 == name)).map (fun p => p.2)

/-- Result of writing a single token: the bytes written, a render error, or
an abnormal abort from a `usize` underflow inside the layout engine. -/
inductive TokenResult
  | ok (out : String)
  | err (e : FmtError)
  | aborted
deriving DecidableEq, Repr

/-- `Token::write_token` (`token.rs`): literals verbatim; a bare variable
writes the default representation; a variable with a format spec goes
through the layout engine.  The lookup happens before any byte is written. -/
def Token.write_token (t : Token) (ctx : Ctxt) : TokenResult :=
  match t with
  | Token.literal lit => TokenResult.ok lit
  | Token.variable name none =>
    match getVariable ctx name with
    | some v => TokenResult.ok v.string_repr
    | none => TokenResult.err (FmtError.variableNameError name)
  | Token.variable name (some fmt) =>
    match getVariable ctx name with
    | some v =>
      match fmt.write_formatted v with
      | some out => TokenResult.ok out
      | none => TokenResult.aborted
    | none => TokenResult.err (FmtError.variableNameError name)

/-- How a render run can stop early. -/
inductive RenderStop
  | error (e : FmtError)
  | aborted
deriving DecidableEq, Repr

/-- `CompiledFormat::format` (`compile.rs`): walk the tokens in order,
accumulating output; the first failing token stops the walk, and the bytes
already written stay written. -/
def renderTokens : List Token → Ctxt → String × Option RenderStop
  | [], _ => ("", none)
  | t :: ts, ctx =>
    match t.write_token ctx with
    | TokenResult.ok s =>
      let rest := renderTokens ts ctx
      (s ++ rest.1, rest.2)
    | TokenResult.err e => ("", some (RenderStop.error e))
    | TokenResult.aborted => ("", some RenderStop.aborted)

/-- Models `unicode_xid::UnicodeXID::is_xid_start` from the external
`unicode_xid` crate (a dependency, not part of this repository): exact on the
ASCII range (letters only; an underscore is not XID_Start), with every
non-ASCII codepoint treated as identifier-start as an approximation of the
Unicode XID_Start table. -/
def isXidStart (c : Char) : Bool :=
  c.isAlpha || c.toNat ≥ 0x80

/-- Models `unicode_xid::UnicodeXID::is_xid_continue` from the external
`unicode_xid` crate: exact on the ASCII range (letters and digits; the
underscore is handled separately by the identifier combinator), with every
non-ASCII codepoint treated as identifier-continue. -/
def isXidContinue (c : Char) : Bool :=
  c.isAlphanum || c.toNat ≥ 0x80

/-- The character predicate of the `take_while` in `rust_identifier_parser`
(`compile.rs`): an underscore or an XID_Continue character. -/
def isIdentContinue (c : Char) : Bool :=
  c == '_' || isXidContinue c

/-- `alignment_parser` (`compile.rs`): one of the three alignment marks. -/
def parseAlignment (s : List Char) : Option (Alignment × List Char) :=
  match s with
  | c :: rest =>
    if c = '<' then some (Alignment.left, rest)
    else if c = '^' then some (Alignment.center, rest)
    else if c = '>' then some (Alignment.right, rest)
    else none
  | [] => none

/-- `flags_parser` (`compile.rs`): an optional sign flag then an optional
zero flag; both are optional so this parser always succeeds. -/
def parseFlags (s : List Char) : Flags × List Char :=
  let signStep : Option SignFlag × List Char :=
    match s with
    | c :: rest =>
      if c = '+' then (some SignFlag.plus, rest)
      else if c = '-' then (some SignFlag.minus, rest)
      else (none, s)
    | [] => (none, s)
  let zeroStep : Bool × List Char :=
    match signStep.2 with
    | c :: rest => if c = '0' then (true, rest) else (false, signStep.2)
    | [] => (false, signStep.2)
  (⟨signStep.1, zeroStep.1⟩, zeroStep.2)

/-- Numeric value of a run of decimal digits. -/
def digitsVal (ds : List Char) : Nat :=
  ds.foldl (fun acc c => acc * 10 + (c.toNat - '0'.toNat)) 0

/-- nom's `character::complete::u32` (`compile.rs`): one or more decimal
digits, failing when there is no digit or the value overflows a `u32`. -/
def parseU32 (s : List Char) : Option (Nat × List Char) :=
  let digits := s.takeWhile Char.isDigit
  let rest := s.dropWhile Char.isDigit
  if digits.isEmpty then none
  else if digitsVal digits < 2 ^ 32 then some (digitsVal digits, rest)
  else none

/-- `precision_parser` (`compile.rs`): a dot followed by a `u32`. -/
def parsePrecision (s : List Char) : Option (Nat × List Char) :=
  match s with
  | c :: rest => if c = '.' then parseU32 rest else none
  | [] => none

/-- `rust_identifier_parser` (`compile.rs`): an XID_Start character followed
by the maximal run of underscore/XID_Continue characters. -/
def parseRustIdentifier (s : List Char) : Option (List Char × List Char) :=
  match s with
  | c :: rest =>
    if isXidStart c then
      some (c :: rest.takeWhile isIdentContinue, rest.dropWhile isIdentContinue)
    else none
  | [] => none

/-- The `fill_spec` combinator inside `format_parser` (`compile.rs`): either
any character followed by an alignment mark, or an alignment mark alone. -/
def parseFillSpec (s : List Char) : Option (Fill × List Char) :=
  match s with
  | c :: rest =>
    match parseAlignment rest with
    | some (a, rem) => some (⟨some c, a⟩, rem)
    | none =>
      match parseAlignment s with
      | some (a, rem) => some (⟨none, a⟩, rem)
      | none => none
  | [] => none

/-- `format_parser` (`compile.rs`): a colon, then optional fill spec, flags,
optional width and optional precision, in that fixed order. -/
def parseFormat (s : List Char) : Option (Format × List Char) :=
  match s with
  | c :: r =>
    if c = ':' then
      let fillStep : Option Fill × List Char :=
        match parseFillSpec r with
        | some (f, r2) => (some f, r2)
        | none => (none, r)
      let flagsStep := parseFlags fillStep.2
      let widthStep : Option Nat × List Char :=
        match parseU32 flagsStep.2 with
        | some (w, r2) => (some w, r2)
        | none => (none, flagsStep.2)
      let precStep : Option Nat × List Char :=
        match parsePrecision widthStep.2 with
        | some (p, r2) => (some p, r2)
        | none => (none, widthStep.2)
      some (⟨fillStep.1, flagsStep.1, widthStep.1, precStep.1⟩, precStep.2)
    else none
  | [] => none

/-- The `tag("{{")` escape alternative of `compile` (`compile.rs`): the
matched text itself, the two-character string `\x7b\x7b`, becomes the
literal token. -/
def tagEscape (s : List Char) : Option (Token × List Char) :=
  match s with
  | a :: b :: rest =>
    if a = '\x7b' ∧ b = '\x7b' then some (Token.literal "\x7b\x7b", rest)
    else none
  | _ => none

/-- The placeholder alternative of `compile` (`compile.rs`): an opening
brace, a Rust identifier, an optional format spec and a closing brace. -/
def parsePlaceholder (s : List Char) : Option (Token × List Char) :=
  match s with
  | a :: r =>
    if a = '\x7b' then
      match parseRustIdentifier r with
      | some (id, r2) =>
        let fmtStep : Option Format × List Char :=
          match parseFormat r2 with
          | some (f, r4) => (some f, r4)
          | none => (none, r2)
        match fmtStep.2 with
        | b :: r5 =>
          if b = '\x7d' then
            some (Token.variable (String.mk id) fmtStep.1, r5)
          else none
        | [] => none
      | none => none
    else none
  | [] => none

/-- The literal alternative of `compile` (`compile.rs`): the maximal
nonempty run of characters other than an opening brace. -/
def parseLiteral (s : List Char) : Option (Token × List Char) :=
  let run := s.takeWhile (fun c => c ≠ '\x7b')
  if run.isEmpty then none
  else some (Token.literal (String.mk run), s.dropWhile (fun c => c ≠ '\x7b'))

/-- The token alternation of `compile` (`compile.rs`): escape, then
placeholder, then literal, in nom's `alt` order. -/
def parseToken (s : List Char) : Option (Token × List Char) :=
  match tagEscape s with
  | some res => some res
  | none =>
    match parsePlaceholder s with
    | some res => some res
    | none => parseLiteral s

/-- The `many_till(alt(...), eof)` loop of `compile` (`compile.rs`),
fuelled by the input length: every successful token consumes at least one
character, so fuel equal to the input length never runs out. -/
def compileAux : Nat → List Char → Option (List Token)
  | _, [] => some []
  | Nat.succ fuel, s =>
    match parseToken s with
    | some (t, rest) => (compileAux fuel rest).map (fun ts => t :: ts)
    | none => none
  | 0, _ :: _ => none

/-- `compile` (`compile.rs`): parse the whole template into tokens; any
leftover unparsed input is a compile error (`none`). -/
def compile (s : String) : Option (List Token) :=
  compileAux s.data.length s.data

/-- Tokens whose literals are invariant under a successful compile: a literal
is either the two-character escape text or a nonempty brace-free run, and a
placeholder name is a nonempty identifier starting with an XID_Start
character. -/
def goodToken : Token → Prop
  | Token.literal l => l = "\x7b\x7b" ∨ (l ≠ "" ∧ ∀ c ∈ l.data, c ≠ '\x7b')
  | Token.variable n _ => ∃ c cs, n.data = c :: cs ∧ isXidStart c = true

/-- Decidable check that a token is a literal. -/
def Token.isLit : Token → Bool
  | Token.literal _ => true
  | Token.variable _ _ => false

theorem string_mk_data (s : String) : String.mk s.data = s := by
  cases s
  rfl

theorem string_append_data (a b : String) : (a ++ b).data = a.data ++ b.data := rfl

theorem string_empty_append (s : String) : "" ++ s = s := by
  cases s
  simp [String.append]

theorem string_append_empty (s : String) : s ++ "" = s := by
  cases s
  simp [String.append]

theorem string_mk_append (a b : List Char) :
    String.mk a ++ String.mk b = String.mk (a ++ b) := rfl

theorem takeWhile_append_all {α} (p : α → Bool) (l l' : List α)
    (h : ∀ x ∈ l, p x = true) :
    (l ++ l').takeWhile p = l ++ l'.takeWhile p := by
  induction l with
  | nil => simp
  | cons a t ih =>
    have ha := h a (by simp)
    simp only [List.cons_append, List.takeWhile_cons, ha, ite_true]
    exact congrArg (a :: ·) (ih (fun x hx => h x (by simp [hx])))

theorem dropWhile_append_all {α} (p : α → Bool) (l l' : List α)
    (h : ∀ x ∈ l, p x = true) :
    (l ++ l').dropWhile p = l'.dropWhile p := by
  induction l with
  | nil => simp
  | cons a t ih =>
    have ha := h a (by simp)
    simp only [List.cons_append, List.dropWhile_cons, ha, ite_true]
    exact ih (fun x hx => h x (by simp [hx]))

theorem xidStart_ne_lbrace {c : Char} (h : isXidStart c = true) : c ≠ '\x7b' := by
  intro hc
  subst hc
  simp [isXidStart] at h

/-- Unfolding equation for `compileAux` on nonempty input with positive fuel. -/
theorem compileAux_cons (fuel : Nat) (x : Char) (xs : List Char) :
    compileAux (fuel + 1) (x :: xs) =
      match parseToken (x :: xs) with
      | some (t, rest) => (compileAux fuel rest).map (fun ts => t :: ts)
      | none => none := rfl

theorem compileAux_nil (fuel : Nat) : compileAux fuel [] = some [] := by
  cases fuel <;> rfl

/-- A successful `tagEscape` consumed exactly two opening braces. -/
theorem tagEscape_eq_some {s : List Char} {t : Token} {r : List Char}
    (h : tagEscape s = some (t, r)) :
    s = '\x7b' :: '\x7b' :: r ∧ t = Token.literal "\x7b\x7b" := by
  match s with
  | [] => simp [tagEscape] at h
  | [a] => simp [tagEscape] at h
  | a :: b :: rest =>
    simp only [tagEscape] at h
    split at h
    · rename_i hc
      obtain ⟨rfl, rfl⟩ := hc
      injection h with h1
      injection h1 with h2 h3
      subst h3
      exact ⟨rfl, h2.symm⟩
    · exact absurd h (by simp)

/-- A successful placeholder parse yields a `variable` token whose name is a
nonempty identifier starting with an XID_Start character. -/
theorem parsePlaceholder_variable {s : List Char} {t : Token} {r : List Char}
    (h : parsePlaceholder s = some (t, r)) :
    ∃ c cs f, t = Token.variable (String.mk (c :: cs)) f ∧ isXidStart c = true := by
  match s with
  | [] => simp [parsePlaceholder] at h
  | a :: rest =>
    simp only [parsePlaceholder] at h
    split at h
    · match hid : parseRustIdentifier rest with
      | none => rw [hid] at h; simp at h
      | some (idl, r2) =>
        rw [hid] at h
        have hxid : ∃ c cs, idl = c :: cs ∧ isXidStart c = true := by
          match rest with
          | [] => simp [parseRustIdentifier] at hid
          | b :: rest2 =>
            simp only [parseRustIdentifier] at hid
            split at hid
            · rename_i hb
              injection hid with hid1
              injection hid1 with hid2 hid3
              exact ⟨b, rest2.takeWhile isIdentContinue, hid2.symm, hb⟩
            · simp at hid
        obtain ⟨c, cs, rfl, hc⟩ := hxid
        simp only at h
        split at h
        · split at h
          · injection h with h1
            injection h1 with h2 h3
            exact ⟨c, cs, _, h2.symm, hc⟩
          · simp at h
        · simp at h
    · simp at h

/-- A successful literal parse returns the maximal brace-free prefix. -/
theorem parseLiteral_eq_some {s : List Char} {t : Token} {r : List Char}
    (h : parseLiteral s = some (t, r)) :
    t = Token.literal (String.mk (s.takeWhile (fun c => c ≠ '\x7b'))) ∧
    s.takeWhile (fun c => c ≠ '\x7b') ≠ [] ∧
    r = s.dropWhile (fun c => c ≠ '\x7b') := by
  simp only [parseLiteral] at h
  split at h
  · simp at h
  · rename_i hne
    injection h with h1
    injection h1 with h2 h3
    exact ⟨h2.symm, by simpa [List.isEmpty_iff] using hne, h3.symm⟩

/-- The text of a literal token produced by `parseToken`, prepended to the
remaining input, reconstitutes the consumed input. -/
theorem parseToken_literal_text {s : List Char} {l : String} {r : List Char}
    (h : parseToken s = some (Token.literal l, r)) :
    l.data ++ r = s := by
  simp only [parseToken] at h
  match hesc : tagEscape s with
  | some res =>
    rw [hesc] at h
    injection h with h1
    subst h1
    obtain ⟨hs, ht⟩ := tagEscape_eq_some hesc
    injection ht with htl
    subst htl
    rw [hs]
    rfl
  | none =>
    rw [hesc] at h
    simp only at h
    match hp : parsePlaceholder s with
    | some res =>
      rw [hp] at h
      injection h with h1
      subst h1
      obtain ⟨c, cs, f, ht, -⟩ := parsePlaceholder_variable hp
      exact absurd ht (by simp)
    | none =>
      rw [hp] at h
      simp only at h
      obtain ⟨ht, -, hr⟩ := parseLiteral_eq_some h
      injection ht with htl
      subst htl
      subst hr
      exact List.takeWhile_append_dropWhile _ _

/-- Claim C1 counterexample: the escape sequence does NOT compile to a
one-character literal.  `compile "\x7b\x7b"` yields the single literal token
whose text is the two-character string `\x7b\x7b`, which is distinct from the
one-character literal, and rendering it writes both bytes. -/
theorem escape_one_char_literal_counterexample :
    compile "\x7b\x7b" = some [Token.literal "\x7b\x7b"] ∧
    Token.literal "\x7b\x7b" ≠ Token.literal "\x7b" ∧
    renderTokens [Token.literal "\x7b\x7b"] [] = ("\x7b\x7b", none) ∧
    "\x7b\x7b" ≠ "\x7b" := by
  refine ⟨by decide, by decide, by decide, by decide⟩

/-- Claim C1 (amended): every occurrence of the two-character escape sequence
compiles to a single literal token whose text is the TWO-character string
`\x7b\x7b`, and rendering that token writes both bytes verbatim; the input
`"\x7b\x7b \x7b\x7b \x7b\x7b"` compiles to the alternating escape-literal and
space-literal tokens. -/
theorem escape_two_char_literal :
    (∀ s : List Char,
      parseToken ('\x7b' :: '\x7b' :: s) = some (Token.literal "\x7b\x7b", s)) ∧
    compile "\x7b\x7b \x7b\x7b \x7b\x7b" =
      some [Token.literal "\x7b\x7b", Token.literal " ", Token.literal "\x7b\x7b",
            Token.literal " ", Token.literal "\x7b\x7b"] ∧
    renderTokens [Token.literal "\x7b\x7b"] [] = ("\x7b\x7b", none) := by
  refine ⟨fun s => rfl, by decide, by decide⟩

/-- Claim C2 (code bug): the code takes the overflow path only for a
representation STRICTLY longer than the width.  At equal length with a forced
sign the padding branch runs, decrements the width for the sign column, and
the unsigned subtraction `width - write_str.len()` underflows: the render
aborts instead of writing the forced sign followed by the value.  The last
conjunct shows the strict case behaving as the claim states. -/
theorem width_boundary_sign_underflow :
    Format.write_formatted ⟨none, ⟨some SignFlag.plus, false⟩, some 2, none⟩
      (TypedValue.uint 12) = none ∧
    compile "\x7bn:+2\x7d" =
      some [Token.variable "n" (some ⟨none, ⟨some SignFlag.plus, false⟩, some 2, none⟩)] ∧
    renderTokens
      [Token.variable "n" (some ⟨none, ⟨some SignFlag.plus, false⟩, some 2, none⟩)]
      [("n", TypedValue.uint 12)] = ("", some RenderStop.aborted) ∧
    Format.write_formatted ⟨none, ⟨some SignFlag.plus, false⟩, some 2, none⟩
      (TypedValue.uint 123) = some "+123" := by
  refine ⟨by decide, by decide, by decide, by decide⟩

/-- Claim C3 counterexample: a comma after the identifier is NOT accepted;
`"\x7ba,\x7d"` fails to compile. -/
theorem comma_after_identifier_counterexample :
    compile "\x7ba,\x7d" = none := by decide

/-- Claim C3 (amended): a placeholder is an opening brace, an identifier and
a closing brace, with an optional colon-introduced format spec but NO
optional comma: every valid identifier inside braces compiles to a
placeholder token named by that identifier. -/
theorem identifier_placeholder_compiles :
    (∀ (c : Char) (cs : List Char),
      isXidStart c = true →
      (∀ x ∈ cs, isIdentContinue x = true) →
      compile (String.mk ('\x7b' :: c :: (cs ++ ['\x7d']))) =
        some [Token.variable (String.mk (c :: cs)) none]) ∧
    compile "\x7bname:*>5\x7d" =
      some [Token.variable "name"
        (some ⟨some ⟨some '*', Alignment.right⟩, ⟨none, false⟩, some 5, none⟩)] := by
  refine ⟨?_, by decide⟩
  intro c cs hc hcs
  have hcne : c ≠ '\x7b' := xidStart_ne_lbrace hc
  have hesc : tagEscape ('\x7b' :: c :: (cs ++ ['\x7d'])) = none := by
    simp [tagEscape, hcne]
  have htake : List.takeWhile isIdentContinue (cs ++ ['\x7d']) = cs := by
    rw [takeWhile_append_all _ _ _ hcs]
    have : List.takeWhile isIdentContinue ['\x7d'] = [] := by decide
    simp [this]
  have hdrop : List.dropWhile isIdentContinue (cs ++ ['\x7d']) = ['\x7d'] := by
    rw [dropWhile_append_all _ _ _ hcs]
    decide
  have hid : parseRustIdentifier (c :: (cs ++ ['\x7d'])) = some (c :: cs, ['\x7d']) := by
    simp [parseRustIdentifier, hc, htake, hdrop]
  have hfmt : parseFormat ['\x7d'] = none := by decide
  have hph : parsePlaceholder ('\x7b' :: c :: (cs ++ ['\x7d'])) =
      some (Token.variable (String.mk (c :: cs)) none, []) := by
    simp [parsePlaceholder, hid, hfmt]
  have htok : parseToken ('\x7b' :: c :: (cs ++ ['\x7d'])) =
      some (Token.variable (String.mk (c :: cs)) none, []) := by
    simp [parseToken, hesc, hph]
  show compileAux _ _ = _
  simp only [String.length, List.length_cons]
  rw [compileAux_cons, htok]
  simp [compileAux_nil]

/-- Claim C3 witness: the amended general statement applied to the concrete
identifier `ab1`. -/
theorem identifier_placeholder_compiles_witness :
    compile (String.mk ('\x7b' :: 'a' :: (['b', '1'] ++ ['\x7d']))) =
      some [Token.variable (String.mk ('a' :: ['b', '1'])) none] :=
  identifier_placeholder_compiles.1 'a' ['b', '1'] (by decide) (by decide)

/-- Claim C8: forced-sign computation under the plus flag.  Positive values
and positive zero force a plus sign; negative finite values force a minus
sign; non-finite floats and non-numeric values force no sign, and a
non-finite float's representation is then written unmodified. -/
theorem forced_sign_computation :
    (∀ n : Nat, SignFlag.plus.get_sign_for_value (TypedValue.int ((n : Int) + 1)) =
      some Sign.positive) ∧
    SignFlag.plus.get_sign_for_value (TypedValue.int 0) = some Sign.zero ∧
    (∀ n : Nat, SignFlag.plus.get_sign_for_value (TypedValue.int (-((n : Int) + 1))) =
      some Sign.negative) ∧
    (∀ n : Nat, SignFlag.plus.get_sign_for_value (TypedValue.uint (n + 1)) =
      some Sign.positive) ∧
    SignFlag.plus.get_sign_for_value (TypedValue.uint 0) = some Sign.zero ∧
    (Sign.positive.toByteChar = '+' ∧ Sign.zero.toByteChar = '+' ∧
      Sign.negative.toByteChar = '-') ∧
    (∀ r : String,
      SignFlag.plus.get_sign_for_value (TypedValue.float64 ⟨r, FloatClass.finitePositive⟩) =
        some Sign.positive ∧
      SignFlag.plus.get_sign_for_value (TypedValue.float64 ⟨r, FloatClass.finiteNegative⟩) =
        some Sign.negative ∧
      SignFlag.plus.get_sign_for_value (TypedValue.float64 ⟨r, FloatClass.nonFinite⟩) = none ∧
      SignFlag.plus.get_sign_for_value (TypedValue.float32 ⟨r, FloatClass.nonFinite⟩) = none) ∧
    (∀ (r : String) (z : Bool),
      Format.write_formatted ⟨none, ⟨some SignFlag.plus, z⟩, none, none⟩
        (TypedValue.float64 ⟨r, FloatClass.nonFinite⟩) = some r) ∧
    (∀ s : String, SignFlag.plus.get_sign_for_value (TypedValue.str s) = none) ∧
    (∀ b : Bool, SignFlag.plus.get_sign_for_value (TypedValue.bool b) = none) ∧
    (∀ d : DynPointer, SignFlag.plus.get_sign_for_value (TypedValue.dyn d) = none) := by
  refine ⟨?_, by decide, ?_, fun n => rfl, by decide, by decide, fun r => ⟨rfl, rfl, rfl, rfl⟩,
    ?_, fun s => rfl, fun b => rfl, fun d => rfl⟩
  · intro n
    simp only [SignFlag.get_sign_for_value, TypedValue.sign, signOfInt]
    split_ifs with h1 h2
    · rfl
    · omega
    · omega
  · intro n
    simp only [SignFlag.get_sign_for_value, TypedValue.sign, signOfInt]
    split_ifs with h1 h2
    · omega
    · omega
    · rfl
  · intro r z
    show some ("" ++ r) = some r
    rw [string_empty_append]

/-- Claim C9: the minus sign flag is inert.  Rendering with the sign flag
parsed from a `-` in the template produces exactly the same output as
rendering with no sign flag at all, for every value and every other format
attribute; and the compiler does parse `-` into the minus sign flag. -/
theorem minus_flag_inert :
    (∀ (f : Option Fill) (z : Bool) (w p : Option Nat) (val : TypedValue),
      Format.write_formatted ⟨f, ⟨some SignFlag.minus, z⟩, w, p⟩ val =
        Format.write_formatted ⟨f, ⟨none, z⟩, w, p⟩ val) ∧
    compile "\x7bx:-\x7d" =
      some [Token.variable "x" (some ⟨none, ⟨some SignFlag.minus, false⟩, none, none⟩)] := by
  refine ⟨fun f z w p val => rfl, by decide⟩

/-- Claim C6: a placeholder whose name is absent from the lookup fails with a
not-found error carrying exactly that name; no bytes are written for that
token or any later token, and the bytes of the earlier tokens remain. -/
theorem lookup_miss_stops_render (pre post : List Token) (name : String)
    (fmt : Option Format) (ctx : Ctxt) (out : String)
    (hmiss : getVariable ctx name = none)
    (hpre : renderTokens pre ctx = (out, none)) :
    renderTokens (pre ++ Token.variable name fmt :: post) ctx =
      (out, some (RenderStop.error (FmtError.variableNameError name))) := by
  induction pre generalizing out with
  | nil =>
    simp only [renderTokens] at hpre
    have h1 : "" = out := congrArg Prod.fst hpre
    subst h1
    cases fmt with
    | none => simp [renderTokens, Token.write_token, hmiss]
    | some f => simp [renderTokens, Token.write_token, hmiss]
  | cons t ts ih =>
    simp only [renderTokens] at hpre
    cases hw : t.write_token ctx with
    | ok s =>
      rw [hw] at hpre
      simp only at hpre
      have h1 : s ++ (renderTokens ts ctx).1 = out := congrArg Prod.fst hpre
      have h2 : (renderTokens ts ctx).2 = none := congrArg Prod.snd hpre
      have hts : renderTokens ts ctx = ((renderTokens ts ctx).1, none) := by
        rw [← h2]
      have ih2 := ih (renderTokens ts ctx).1 hts
      show renderTokens (t :: (ts ++ Token.variable name fmt :: post)) ctx = _
      simp only [renderTokens]
      rw [hw, ih2]
      simp [h1]
    | err e =>
      rw [hw] at hpre
      exact absurd (congrArg Prod.snd hpre) (by simp)
    | aborted =>
      rw [hw] at hpre
      exact absurd (congrArg Prod.snd hpre) (by simp)

/-- Claim C6 witness: concrete render with a miss on `severity`. -/
theorem lookup_miss_stops_render_witness :
    renderTokens ([Token.literal "a "] ++ Token.variable "severity" none ::
      [Token.literal " b"]) [] =
      ("a ", some (RenderStop.error (FmtError.variableNameError "severity"))) :=
  lookup_miss_stops_render [Token.literal "a "] [Token.literal " b"] "severity"
    none [] "a " (by decide) (by decide)

theorem compileAux_all_literals (fuel : Nat) :
    ∀ (s : List Char) (toks : List Token) (ctx : Ctxt),
      compileAux fuel s = some toks →
      (∀ t ∈ toks, t.isLit = true) →
      renderTokens toks ctx = (String.mk s, none) := by
  induction fuel with
  | zero =>
    intro s toks ctx h hlit
    match s with
    | [] =>
      rw [compileAux_nil] at h
      injection h with h1
      subst h1
      rfl
    | a :: l => simp [compileAux] at h
  | succ fuel ih =>
    intro s toks ctx h hlit
    match s with
    | [] =>
      rw [compileAux_nil] at h
      injection h with h1
      subst h1
      rfl
    | a :: l =>
      rw [compileAux_cons] at h
      cases htok : parseToken (a :: l) with
      | none => rw [htok] at h; simp at h
      | some res =>
        obtain ⟨t, rest⟩ := res
        rw [htok] at h
        have h2 : Option.map (fun ts => t :: ts) (compileAux fuel rest) = some toks := h
        cases hrec : compileAux fuel rest with
        | none => rw [hrec] at h2; simp at h2
        | some ts2 =>
          rw [hrec] at h2
          injection h2 with h1
          subst h1
          have htlit := hlit t (by simp)
          match t with
          | Token.variable n f => simp [Token.isLit] at htlit
          | Token.literal lt =>
            have hdata := parseToken_literal_text htok
            have ihr := ih rest ts2 ctx hrec (fun x hx => hlit x (by simp [hx]))
            show renderTokens (Token.literal lt :: ts2) ctx = _
            simp only [renderTokens, Token.write_token]
            rw [ihr]
            have hmk : lt ++ String.mk rest = String.mk (a :: l) := by
              rw [← hdata]
              cases lt
              rfl
            rw [hmk]

/-- Claim C7: compiling a template whose token sequence contains no
placeholder tokens and then rendering it reproduces the template verbatim,
for every lookup context. -/
theorem no_placeholder_roundtrip (s : String) (toks : List Token) (ctx : Ctxt)
    (h : compile s = some toks)
    (hlit : toks.all Token.isLit = true) :
    renderTokens toks ctx = (s, none) := by
  have hres := compileAux_all_literals s.data.length s.data toks ctx h
    (List.all_eq_true.mp hlit)
  rwa [string_mk_data] at hres

/-- Claim C7 witness: a literal-only template (including an unescaped closing
brace) round-trips through compile and render. -/
theorem no_placeholder_roundtrip_witness :
    renderTokens [Token.literal "ab\x7dc"] [] = ("ab\x7dc", none) :=
  no_placeholder_roundtrip "ab\x7dc" [Token.literal "ab\x7dc"] [] (by decide)
    (by decide)

theorem parseToken_good {s : List Char} {t : Token} {r : List Char}
    (h : parseToken s = some (t, r)) : goodToken t := by
  simp only [parseToken] at h
  cases hesc : tagEscape s with
  | some res =>
    rw [hesc] at h
    injection h with h1
    subst h1
    obtain ⟨-, ht⟩ := tagEscape_eq_some hesc
    rw [ht]
    exact Or.inl rfl
  | none =>
    rw [hesc] at h
    simp only at h
    cases hp : parsePlaceholder s with
    | some res =>
      rw [hp] at h
      injection h with h1
      subst h1
      obtain ⟨c, cs, f, ht, hc⟩ := parsePlaceholder_variable hp
      rw [ht]
      exact ⟨c, cs, rfl, hc⟩
    | none =>
      rw [hp] at h
      simp only at h
      obtain ⟨ht, hne, -⟩ := parseLiteral_eq_some h
      rw [ht]
      right
      refine ⟨?_, ?_⟩
      · intro habs
        apply hne
        have hd := congrArg String.data habs
        simpa using hd
      · intro ch hch
        have hmem := List.mem_takeWhile_imp hch
        simpa using hmem

theorem compileAux_goodTokens (fuel : Nat) :
    ∀ (s : List Char) (toks : List Token),
      compileAux fuel s = some toks → ∀ t ∈ toks, goodToken t := by
  induction fuel with
  | zero =>
    intro s toks h t ht
    match s with
    | [] =>
      rw [compileAux_nil] at h
      injection h with h1
      subst h1
      simp at ht
    | a :: l => simp [compileAux] at h
  | succ fuel ih =>
    intro s toks h t ht
    match s with
    | [] =>
      rw [compileAux_nil] at h
      injection h with h1
      subst h1
      simp at ht
    | a :: l =>
      rw [compileAux_cons] at h
      cases htok : parseToken (a :: l) with
      | none => rw [htok] at h; simp at h
      | some res =>
        obtain ⟨t0, rest⟩ := res
        rw [htok] at h
        have h2 : Option.map (fun ts => t0 :: ts) (compileAux fuel rest) = some toks := h
        cases hrec : compileAux fuel rest with
        | none => rw [hrec] at h2; simp at h2
        | some ts2 =>
          rw [hrec] at h2
          injection h2 with h1
          subst h1
          rcases List.mem_cons.mp ht with rfl | hmem
          · exact parseToken_good htok
          · exact ih rest ts2 hrec t hmem

/-- Claim C10: in every token sequence produced by a successful compile, each
literal token is either exactly the two-character escape text or a nonempty
string containing no opening brace, and each placeholder token's name is a
nonempty identifier whose first character is an identifier-start character. -/
theorem compiled_token_invariant (s : String) (toks : List Token)
    (h : compile s = some toks) : ∀ t ∈ toks, goodToken t :=
  compileAux_goodTokens s.data.length s.data toks h

/-- Claim C10 witness: the invariant applied to a concrete compile. -/
theorem compiled_token_invariant_witness :
    goodToken (Token.literal "ab") :=
  compiled_token_invariant "ab" [Token.literal "ab"] (by decide)
    (Token.literal "ab") (by simp)

/-- Claim C5: alignment layout for values shorter than the width, with no
sign flag and no zero flag: right alignment puts all fill before the value,
left alignment all fill after, center alignment floor((width-len)/2) before
and the remainder after; plus the two concrete instances from the spec. -/
theorem alignment_layout :
    (∀ (c : Char) (w : Nat) (val : TypedValue),
      val.string_repr.utf8ByteSize < w →
      Format.write_formatted ⟨some ⟨some c, Alignment.right⟩, ⟨none, false⟩, some w, none⟩ val =
        some (String.mk (List.replicate (w - val.string_repr.utf8ByteSize) c) ++
          val.string_repr)) ∧
    (∀ (c : Char) (w : Nat) (val : TypedValue),
      val.string_repr.utf8ByteSize < w →
      Format.write_formatted ⟨some ⟨some c, Alignment.left⟩, ⟨none, false⟩, some w, none⟩ val =
        some (val.string_repr ++
          String.mk (List.replicate (w - val.string_repr.utf8ByteSize) c))) ∧
    (∀ (c : Char) (w : Nat) (val : TypedValue),
      val.string_repr.utf8ByteSize < w →
      Format.write_formatted ⟨some ⟨some c, Alignment.center⟩, ⟨none, false⟩, some w, none⟩ val =
        some (String.mk (List.replicate ((w - val.string_repr.utf8ByteSize) / 2) c) ++
          val.string_repr ++
          String.mk (List.replicate ((w - val.string_repr.utf8ByteSize) -
            (w - val.string_repr.utf8ByteSize) / 2) c))) ∧
    Format.write_formatted ⟨some ⟨some '*', Alignment.right⟩, ⟨none, false⟩, some 10, none⟩
      (TypedValue.uint32 0) = some "*********0" ∧
    Format.write_formatted ⟨some ⟨some '$', Alignment.left⟩, ⟨none, false⟩, some 20, none⟩
      (TypedValue.int32 (-1000)) = some "-1000$$$$$$$$$$$$$$$" := by
  refine ⟨?_, ?_, ?_, by decide, by decide⟩
  · intro c w val hlt
    have h0 : ¬ val.string_repr.utf8ByteSize > w := by omega
    have h1 : val.string_repr.utf8ByteSize ≤ w := le_of_lt hlt
    have h2 : w - val.string_repr.utf8ByteSize ≤ w := Nat.sub_le _ _
    have h3 : w - (w - val.string_repr.utf8ByteSize) = val.string_repr.utf8ByteSize := by omega
    simp [Format.write_formatted, Format.get_fill, Flags.is_number_aware,
      Fill.write_left_filler, Fill.write_filler, Fill.write_right_filler,
      Fill.get_fill_char_or_default, sub?, h0, h1, h2, h3,
      string_empty_append, string_append_empty]
  · intro c w val hlt
    have h0 : ¬ val.string_repr.utf8ByteSize > w := by omega
    have h1 : val.string_repr.utf8ByteSize ≤ w := le_of_lt hlt
    simp [Format.write_formatted, Format.get_fill, Flags.is_number_aware,
      Fill.write_left_filler, Fill.write_filler, Fill.write_right_filler,
      Fill.get_fill_char_or_default, sub?, h0, h1,
      string_empty_append, string_append_empty]
  · intro c w val hlt
    have h0 : ¬ val.string_repr.utf8ByteSize > w := by omega
    have h1 : val.string_repr.utf8ByteSize ≤ w := le_of_lt hlt
    have hk : (w - val.string_repr.utf8ByteSize) / 2 ≤ w - val.string_repr.utf8ByteSize :=
      Nat.div_le_self _ _
    have h2 : (w - val.string_repr.utf8ByteSize) / 2 ≤ w := le_trans hk (Nat.sub_le _ _)
    have h3 : val.string_repr.utf8ByteSize ≤ w - (w - val.string_repr.utf8ByteSize) / 2 := by
      omega
    have h4 : w - (w - val.string_repr.utf8ByteSize) / 2 - val.string_repr.utf8ByteSize =
        (w - val.string_repr.utf8ByteSize) - (w - val.string_repr.utf8ByteSize) / 2 := by omega
    simp [Format.write_formatted, Format.get_fill, Flags.is_number_aware,
      Fill.write_left_filler, Fill.write_filler, Fill.write_right_filler,
      Fill.get_fill_char_or_default, sub?, h0, h1, h2, h3, h4,
      string_empty_append, string_append_empty, String.append_assoc]

/-- Claim C5 witness: the right-alignment law applied at a concrete input. -/
theorem alignment_layout_witness :
    Format.write_formatted ⟨some ⟨some '#', Alignment.right⟩, ⟨none, false⟩, some 5, none⟩
      (TypedValue.str "ab") = some "###ab" := by
  have h := alignment_layout.1 '#' 5 (TypedValue.str "ab") (by decide)
  rw [h]
  decide

/-- Claim C4: with the zero flag on, a width, and a numeric value shorter
than the width, the effective fill is the zero fill with right alignment,
overriding any requested fill and alignment; the forced sign is written
before the padding and consumes one column, and a negative value's leading
minus is stripped from the representation before the digits.  Includes the
spec's concrete instance and general-width versions for a negative and a
positive value. -/
theorem zero_pad_number_aware :
    Format.write_formatted
      ⟨some ⟨some '.', Alignment.center⟩, ⟨some SignFlag.plus, true⟩, some 12, none⟩
      (TypedValue.int (-194)) = some "-00000000194" ∧
    (∀ (f : Option Fill) (sf : Option SignFlag) (w p : Option Nat) (val : TypedValue),
      val.is_numeric = true →
      Format.get_fill ⟨f, ⟨sf, true⟩, w, p⟩ val = ZERO_FILL) ∧
    (∀ (f : Option Fill) (w : Nat), 4 ≤ w →
      Format.write_formatted ⟨f, ⟨some SignFlag.plus, true⟩, some w, none⟩
        (TypedValue.int (-194)) =
        some ("-" ++ String.mk (List.replicate (w - 4) '0') ++ "194")) ∧
    (∀ (f : Option Fill) (w : Nat), 4 ≤ w →
      Format.write_formatted ⟨f, ⟨some SignFlag.plus, true⟩, some w, none⟩
        (TypedValue.uint 129) =
        some ("+" ++ String.mk (List.replicate (w - 4) '0') ++ "129")) := by
  refine ⟨by decide, ?_, ?_, ?_⟩
  · intro f sf w p val h
    simp [Format.get_fill, Flags.is_number_aware, h]
  · intro f w hw
    have hrepr : (TypedValue.int (-194)).string_repr = "-194" := by decide
    have hsgn : SignFlag.plus.get_sign_for_value (TypedValue.int (-194)) =
        some Sign.negative := by decide
    have hsz : ("-194" : String).utf8ByteSize = 4 := by decide
    have hdrop : ("-194" : String).drop 1 = "194" := by decide
    have hsz2 : ("194" : String).utf8ByteSize = 3 := by decide
    have hsing : String.singleton '-' = "-" := by decide
    have e0 : ¬ (4 > w) := by omega
    have e1 : 1 ≤ w := by omega
    have e2 : 3 ≤ w - 1 := by omega
    have e3 : w - 1 - 3 = w - 4 := by omega
    have e4 : w - 4 ≤ w - 1 := by omega
    have e5 : w - 1 - (w - 4) = 3 := by omega
    simp [Format.write_formatted, Format.get_fill, Flags.is_number_aware,
      TypedValue.is_numeric, Format.write_sign, Sign.toByteChar, ZERO_FILL,
      Fill.write_left_filler, Fill.write_filler, Fill.write_right_filler,
      Fill.get_fill_char_or_default, sub?, hrepr, hsgn, hsz, hdrop, hsz2, hsing,
      e0, e1, e2, e3, e4, e5, string_empty_append, string_append_empty]
  · intro f w hw
    have hrepr : (TypedValue.uint 129).string_repr = "129" := by decide
    have hsgn : SignFlag.plus.get_sign_for_value (TypedValue.uint 129) =
        some Sign.positive := by decide
    have hsz : ("129" : String).utf8ByteSize = 3 := by decide
    have hsing : String.singleton '+' = "+" := by decide
    have e0 : ¬ (3 > w) := by omega
    have e1 : 1 ≤ w := by omega
    have e2 : 3 ≤ w - 1 := by omega
    have e3 : w - 1 - 3 = w - 4 := by omega
    have e4 : w - 4 ≤ w - 1 := by omega
    have e5 : w - 1 - (w - 4) = 3 := by omega
    simp [Format.write_formatted, Format.get_fill, Flags.is_number_aware,
      TypedValue.is_numeric, Format.write_sign, Sign.toByteChar, ZERO_FILL,
      Fill.write_left_filler, Fill.write_filler, Fill.write_right_filler,
      Fill.get_fill_char_or_default, sub?, hrepr, hsgn, hsz, hsing,
      e0, e1, e2, e3, e4, e5, string_empty_append, string_append_empty]

/-- Claim C4 witness: the general parts applied at concrete inputs. -/
theorem zero_pad_number_aware_witness :
    Format.get_fill ⟨some ⟨some '.', Alignment.center⟩, ⟨some SignFlag.plus, true⟩,
      some 12, none⟩ (TypedValue.int (-194)) = ZERO_FILL ∧
    Format.write_formatted ⟨none, ⟨some SignFlag.plus, true⟩, some 7, none⟩
      (TypedValue.uint 129) = some "+000129" := by
  constructor
  · exact zero_pad_number_aware.2.1 _ _ _ _ _ (by decide)
  · have h := zero_pad_number_aware.2.2.2 none 7 (by omega)
    rw [h]
    decide

/-- Claim C1 witness: the general escape parse applied at a concrete tail. -/
theorem escape_two_char_literal_witness :
    parseToken ('\x7b' :: '\x7b' :: [' ']) = some (Token.literal "\x7b\x7b", [' ']) :=
  escape_two_char_literal.1 [' ']

/-- Claim C8 witness: the sign computation applied at concrete inputs. -/
theorem forced_sign_computation_witness :
    SignFlag.plus.get_sign_for_value (TypedValue.int ((4 : Nat) + 1)) = some Sign.positive ∧
    SignFlag.plus.get_sign_for_value (TypedValue.int (-((4 : Nat) + 1))) = some Sign.negative ∧
    Format.write_formatted ⟨none, ⟨some SignFlag.plus, false⟩, none, none⟩
      (TypedValue.float64 ⟨"inf", FloatClass.nonFinite⟩) = some "inf" :=
  ⟨forced_sign_computation.1 4, forced_sign_computation.2.2.1 4,
   forced_sign_computation.2.2.2.2.2.2.2.1 "inf" false⟩

/-- Claim C9 witness: the minus-flag equivalence applied at a concrete
format and value. -/
theorem minus_flag_inert_witness :
    Format.write_formatted ⟨none, ⟨some SignFlag.minus, false⟩, some 5, none⟩
      (TypedValue.int 7) =
    Format.write_formatted ⟨none, ⟨none, false⟩, some 5, none⟩ (TypedValue.int 7) :=
  minus_flag_inert.1 none false (some 5) none (TypedValue.int 7)

end SFmt
